import Mathlib

/-!
Verification development for the Forage Kitchen COGS dashboard
(`cogs_dashboard.py`).  The Python code is shallowly embedded:

* Calendar dates are modelled as day counts (`ℕ`) from a fixed epoch
  Monday, so `timedelta(days = k)` is `+ k` and `datetime.weekday()`
  (Monday = 0, Wednesday = 2) is `weekday d = d % 7`.
* Monetary amounts (Python floats holding currency values) are modelled
  as rationals (`ℚ`).  Python's `round(x, n)` (round half to even on the
  exact value) is modelled by `pyround`.
* Python strings are Lean `String`s; `str.split`, `str.strip` and
  `str.startswith` are modelled character-wise by `py_split`, `py_strip`
  and `py_startswith`.
* The `while` loops of the script are encoded structurally with an
  explicit iteration bound (fuel) that the loop can never exhaust; each
  embedded loop is instantiated with that bound.
* Network fetches are modelled as explicit functions supplied as
  arguments; an upstream failure is `Except.error` / `Option.none`.
-/

/-- Python `datetime.weekday()` under the day-count model: Monday = 0. -/
def weekday (d : ℕ) : ℕ := d % 7

/-- The constant Python `datetime.weekday()` gives for a Wednesday. -/
def wednesday : ℕ := 2

/-- Floor of a rational, computably (`Int.fdiv` is floor division). -/
def rat_floor (x : ℚ) : ℤ := Int.fdiv x.num x.den

/-- Round a rational to the nearest integer, ties to even, as Python's
built-in `round` does on exact values. -/
def round_half_even (x : ℚ) : ℤ :=
  if x - (rat_floor x : ℚ) < 1 / 2 then rat_floor x
  else if (1 : ℚ) / 2 < x - (rat_floor x : ℚ) then rat_floor x + 1
  else if rat_floor x % 2 = 0 then rat_floor x else rat_floor x + 1

/-- Python `round(x, ndigits)` on exact decimal values. -/
def pyround (ndigits : ℕ) (x : ℚ) : ℚ :=
  (round_half_even (x * 10 ^ ndigits) : ℚ) / 10 ^ ndigits

lemma rat_floor_intCast (z : ℤ) : rat_floor (z : ℚ) = z := by
  simp [rat_floor, Rat.num_intCast, Rat.den_intCast, Int.fdiv_one]

lemma round_half_even_intCast (z : ℤ) : round_half_even (z : ℚ) = z := by
  simp [round_half_even, rat_floor_intCast]

lemma pyround_intCast (ndigits : ℕ) (z : ℤ) : pyround ndigits (z : ℚ) = z := by
  unfold pyround
  have h : (z : ℚ) * 10 ^ ndigits = ((z * 10 ^ ndigits : ℤ) : ℚ) := by push_cast; ring
  rw [h, round_half_even_intCast]
  push_cast
  field_simp

lemma pyround_natCast (ndigits n : ℕ) : pyround ndigits (n : ℚ) = n := by
  have h : ((n : ℤ) : ℚ) = (n : ℚ) := by push_cast; ring
  rw [← h, pyround_intCast]

lemma pyround_zero (ndigits : ℕ) : pyround ndigits 0 = 0 := by
  have := pyround_natCast ndigits 0
  simpa using this

/-! ## 4-4-5 fiscal calendar (`get_445_periods`, `get_period_weeks`) -/

/-- Weeks-per-period pattern of `get_445_periods`. -/
def pattern445 : List ℕ := [4, 4, 5, 4, 4, 5, 4, 4, 5, 4, 4, 5]

/-- One fiscal period, as built by `get_445_periods` (keys `period`,
`start`, `end`, `weeks`; `end` is spelled `stop` here). -/
structure FiscalPeriod where
  period : ℕ
  start : ℕ
  stop : ℕ
  weeks : ℕ
deriving DecidableEq, Repr

/-- Loop body of `get_445_periods`: walk the weeks pattern, each period
running `weeks*7 - 1` days past its start, the next period starting the
following day. -/
def periods_go : ℕ → ℕ → List ℕ → List FiscalPeriod
  | _, _, [] => []
  | current, i, w :: ws =>
    { period := i + 1, start := current, stop := current + 7 * w - 1, weeks := w } ::
      periods_go (current + 7 * w) (i + 1) ws

/-- `get_445_periods` from `cogs_dashboard.py` (lines 172-187). -/
def get_445_periods (fy_start : ℕ) : List FiscalPeriod :=
  periods_go fy_start 0 pattern445

/-- Whether a date falls inside a period (`p["start"] <= d <= p["end"]`). -/
def period_contains (p : FiscalPeriod) (d : ℕ) : Bool :=
  decide (p.start ≤ d) && decide (d ≤ p.stop)

/-- The period lookup performed by `get_current_period` within one fiscal
year: the first generated period whose `[start, end]` contains the date. -/
def period_containing (fy_start d : ℕ) : Option FiscalPeriod :=
  (get_445_periods fy_start).find? (fun p => period_contains p d)

/-- Generic chunking loop: starting from `current`, emit consecutive closed
intervals of width `step + 1` days, the last truncated at `stop`.  `fuel`
bounds the iteration count; with `fuel ≥ stop + 1 - current` it is never
exhausted.  `get_period_weeks` is this loop with `step = 6` and
`pull_transactions_for_period`'s month chunking is it with `step = 30`. -/
def chunk_loop (step stop : ℕ) : ℕ → ℕ → List (ℕ × ℕ)
  | _, 0 => []
  | current, fuel + 1 =>
    if current ≤ stop then
      (current, min (current + step) stop) ::
        chunk_loop step stop (min (current + step) stop + 1) fuel
    else []

/-- `get_period_weeks` from `cogs_dashboard.py` (lines 209-219): break a
period into Wed-Tue weeks, i.e. consecutive 7-day spans from the period
start, the last truncated at the period end. -/
def get_period_weeks (period_start period_end : ℕ) : List (ℕ × ℕ) :=
  chunk_loop 6 period_end period_start (period_end + 1 - period_start)

/-- A list of closed intervals that exactly tiles `[s, e]` in order:
each interval starts where the previous ended plus one, and the last ends
at `e`. -/
def IntervalChain : ℕ → ℕ → List (ℕ × ℕ) → Prop
  | s, e, [] => s = e + 1
  | s, e, w :: ws => w.1 = s ∧ s ≤ w.2 ∧ w.2 ≤ e ∧ IntervalChain (w.2 + 1) e ws

/-- Membership test for a date in an interval. -/
def in_interval (d : ℕ) (w : ℕ × ℕ) : Bool :=
  decide (w.1 ≤ d) && decide (d ≤ w.2)

@[simp] lemma IntervalChain_nil (s e : ℕ) : IntervalChain s e [] = (s = e + 1) := rfl

@[simp] lemma IntervalChain_cons (s e : ℕ) (w : ℕ × ℕ) (ws : List (ℕ × ℕ)) :
    IntervalChain s e (w :: ws) =
      (w.1 = s ∧ s ≤ w.2 ∧ w.2 ≤ e ∧ IntervalChain (w.2 + 1) e ws) := rfl

lemma IntervalChain.countP_eq {s e : ℕ} {l : List (ℕ × ℕ)}
    (h : IntervalChain s e l) (d : ℕ) :
    l.countP (in_interval d) = if s ≤ d ∧ d ≤ e then 1 else 0 := by
  induction l generalizing s with
  | nil =>
    simp only [IntervalChain] at h
    simp only [List.countP_nil]
    split_ifs with hc
    · omega
    · rfl
  | cons w ws ih =>
    obtain ⟨h1, h2, h3, h4⟩ := h
    rw [List.countP_cons, ih h4]
    simp only [in_interval, Bool.and_eq_true, decide_eq_true_eq]
    split_ifs <;> omega

lemma IntervalChain.mem_bounds {s e : ℕ} {l : List (ℕ × ℕ)}
    (h : IntervalChain s e l) : ∀ w ∈ l, s ≤ w.1 ∧ w.1 ≤ w.2 ∧ w.2 ≤ e := by
  induction l generalizing s with
  | nil => intro w hw; cases hw
  | cons a as ih =>
    obtain ⟨h1, h2, h3, h4⟩ := h
    intro w hw
    rcases List.mem_cons.mp hw with rfl | hw
    · omega
    · have := ih h4 w hw
      omega

lemma IntervalChain.exists_mem {s e : ℕ} {l : List (ℕ × ℕ)}
    (h : IntervalChain s e l) {d : ℕ} (h1 : s ≤ d) (h2 : d ≤ e) :
    ∃ w ∈ l, w.1 ≤ d ∧ d ≤ w.2 := by
  induction l generalizing s with
  | nil => simp only [IntervalChain] at h; omega
  | cons a as ih =>
    obtain ⟨ha1, ha2, ha3, ha4⟩ := h
    by_cases hd : d ≤ a.2
    · exact ⟨a, List.mem_cons_self a as, by omega, hd⟩
    · obtain ⟨w, hw, hw1, hw2⟩ := ih ha4 (by omega)
      exact ⟨w, List.mem_cons_of_mem a hw, hw1, hw2⟩

lemma IntervalChain.ne_nil {s e : ℕ} {l : List (ℕ × ℕ)}
    (h : IntervalChain s e l) (hse : s ≤ e) : l ≠ [] := by
  intro hl
  subst hl
  simp only [IntervalChain] at h
  omega

/-- The chunking loop, given enough fuel, produces an interval chain
covering `[current, stop]`. -/
lemma chunk_loop_chain (step stop : ℕ) :
    ∀ fuel current, current ≤ stop + 1 → stop + 1 - current ≤ fuel →
      IntervalChain current stop (chunk_loop step stop current fuel) := by
  intro fuel
  induction fuel with
  | zero =>
    intro current h1 h2
    have : current = stop + 1 := by omega
    simp [chunk_loop, IntervalChain, this]
  | succ n ih =>
    intro current h1 h2
    by_cases hc : current ≤ stop
    · simp only [chunk_loop, if_pos hc]
      refine ⟨rfl, ?_, ?_, ?_⟩
      · omega
      · omega
      · exact ih _ (by omega) (by omega)
    · have : current = stop + 1 := by omega
      simp [chunk_loop, hc, IntervalChain, this]

lemma get_period_weeks_chain (ps pe : ℕ) (h : ps ≤ pe + 1) :
    IntervalChain ps pe (get_period_weeks ps pe) :=
  chunk_loop_chain 6 pe _ ps h (by omega)

lemma chunk_loop_head (step stop current fuel : ℕ) (h1 : current ≤ stop)
    (h2 : 1 ≤ fuel) :
    (chunk_loop step stop current fuel).head? =
      some (current, min (current + step) stop) := by
  cases fuel with
  | zero => omega
  | succ n => simp [chunk_loop, h1]

/-- Explicit form of the twelve generated periods. -/
lemma get_445_periods_eq (fy : ℕ) :
    get_445_periods fy =
      [⟨1, fy, fy + 27, 4⟩, ⟨2, fy + 28, fy + 55, 4⟩, ⟨3, fy + 56, fy + 90, 5⟩,
       ⟨4, fy + 91, fy + 118, 4⟩, ⟨5, fy + 119, fy + 146, 4⟩, ⟨6, fy + 147, fy + 181, 5⟩,
       ⟨7, fy + 182, fy + 209, 4⟩, ⟨8, fy + 210, fy + 237, 4⟩, ⟨9, fy + 238, fy + 272, 5⟩,
       ⟨10, fy + 273, fy + 300, 4⟩, ⟨11, fy + 301, fy + 328, 4⟩,
       ⟨12, fy + 329, fy + 363, 5⟩] := by
  simp only [get_445_periods, pattern445, periods_go, List.cons.injEq,
    FiscalPeriod.mk.injEq, and_true]
  norm_num

/-- The period list, viewed as its list of `(start, end)` intervals. -/
def period_intervals (fy : ℕ) : List (ℕ × ℕ) :=
  (get_445_periods fy).map (fun p => (p.start, p.stop))

lemma period_intervals_chain (fy : ℕ) :
    IntervalChain fy (fy + 363) (period_intervals fy) := by
  simp only [period_intervals, get_445_periods_eq, List.map_cons, List.map_nil,
    IntervalChain_cons, IntervalChain_nil, true_and, and_true]
  omega

lemma periods_countP (fy d : ℕ) :
    (get_445_periods fy).countP (fun p => period_contains p d) =
      if fy ≤ d ∧ d ≤ fy + 363 then 1 else 0 := by
  have h := (period_intervals_chain fy).countP_eq d
  rw [period_intervals, List.countP_map] at h
  exact h

lemma periods_shape (fy : ℕ) :
    ∀ p ∈ get_445_periods fy,
      p.start + 7 * p.weeks = p.stop + 1 ∧ fy ≤ p.start ∧ p.stop ≤ fy + 363 ∧
        p.start % 7 = fy % 7 ∧ 4 ≤ p.weeks := by
  rw [get_445_periods_eq]
  intro p hp
  simp only [List.mem_cons, List.not_mem_nil, or_false] at hp
  rcases hp with rfl | rfl | rfl | rfl | rfl | rfl | rfl | rfl | rfl | rfl | rfl | rfl <;>
    simp <;> omega

lemma period_containing_spec (fy d : ℕ) (h1 : fy ≤ d) (h2 : d ≤ fy + 363) :
    ∃ p, period_containing fy d = some p ∧ p.start ≤ d ∧ d ≤ p.stop := by
  have hex : ∃ w ∈ period_intervals fy, w.1 ≤ d ∧ d ≤ w.2 :=
    (period_intervals_chain fy).exists_mem h1 h2
  obtain ⟨w, hw, hw1, hw2⟩ := hex
  rw [period_intervals] at hw
  obtain ⟨p, hp, rfl⟩ := List.mem_map.mp hw
  have hsome : ((get_445_periods fy).find? (fun p => period_contains p d)).isSome := by
    rw [List.find?_isSome]
    exact ⟨p, hp, by simp [period_contains]; omega⟩
  obtain ⟨q, hq⟩ := Option.isSome_iff_exists.mp hsome
  refine ⟨q, hq, ?_, ?_⟩ <;>
    have := List.find?_some hq <;>
    simp only [period_contains, Bool.and_eq_true, decide_eq_true_eq] at this <;>
    omega

/-- C4 (amended).  For any fiscal-year start date: the twelve generated
periods are contiguous, non-overlapping and span exactly 364 days; every
day in that span belongs to exactly one period and `period_containing`
returns a period containing it; each period's business weeks tile the
period's day range exactly once, the first week starting on the period's
start day (`period_start` to `period_start + 6`).  Every period start --
hence every week start -- falls on the same weekday as the fiscal-year
start; it is a Wednesday only when the configured start is. -/
theorem c4_fiscal_calendar_partition (fy : ℕ) :
    (get_445_periods fy).length = 12
    ∧ IntervalChain fy (fy + 363) (period_intervals fy)
    ∧ (∀ d, fy ≤ d → d ≤ fy + 363 →
        (get_445_periods fy).countP (fun p => period_contains p d) = 1
        ∧ ∃ p, period_containing fy d = some p ∧ p.start ≤ d ∧ d ≤ p.stop)
    ∧ (∀ d, d < fy ∨ fy + 363 < d →
        (get_445_periods fy).countP (fun p => period_contains p d) = 0)
    ∧ (∀ p ∈ get_445_periods fy,
        (∀ d, (get_period_weeks p.start p.stop).countP (in_interval d) =
            if p.start ≤ d ∧ d ≤ p.stop then 1 else 0)
        ∧ (∀ w ∈ get_period_weeks p.start p.stop,
            p.start ≤ w.1 ∧ w.1 ≤ w.2 ∧ w.2 ≤ p.stop)
        ∧ (get_period_weeks p.start p.stop).head? = some (p.start, p.start + 6)
        ∧ weekday p.start = weekday fy) := by
  refine ⟨?_, period_intervals_chain fy, ?_, ?_, ?_⟩
  · rw [get_445_periods_eq]; rfl
  · intro d h1 h2
    refine ⟨?_, period_containing_spec fy d h1 h2⟩
    rw [periods_countP]
    simp [h1, h2]
  · intro d hd
    rw [periods_countP]
    have : ¬ (fy ≤ d ∧ d ≤ fy + 363) := by omega
    simp [this]
  · intro p hp
    obtain ⟨hs1, hs2, hs3, hs4, hs5⟩ := periods_shape fy p hp
    have hlen : p.start + 27 ≤ p.stop := by omega
    have hchain : IntervalChain p.start p.stop (get_period_weeks p.start p.stop) :=
      get_period_weeks_chain p.start p.stop (by omega)
    refine ⟨hchain.countP_eq, hchain.mem_bounds, ?_, ?_⟩
    · rw [get_period_weeks, chunk_loop_head 6 p.stop p.start _ (by omega) (by omega)]
      congr 2
      omega
    · simp only [weekday]
      omega

/-- C4, counterexample to the claim as stated: with a fiscal-year start
falling on a Thursday (day 3 of the Monday-anchored week), the first
business week of period 1 starts on that Thursday, not on a Wednesday;
`get_period_weeks` never adjusts weekdays. -/
theorem c4_counterexample :
    period_containing 3 3 = some ⟨1, 3, 30, 4⟩
    ∧ (get_period_weeks 3 30).head? = some (3, 9)
    ∧ weekday 3 ≠ wednesday := by decide

theorem c4_fiscal_calendar_partition_witness :
    ((700 : ℕ) ≤ 850 ∧ 850 ≤ 700 + 363)
    ∧ ((get_445_periods 700).countP (fun p => period_contains p 850) = 1
        ∧ ∃ p, period_containing 700 850 = some p ∧ p.start ≤ 850 ∧ 850 ≤ p.stop) :=
  ⟨⟨by norm_num, by norm_num⟩,
    (c4_fiscal_calendar_partition 700).2.2.1 850 (by norm_num) (by norm_num)⟩

/-! ## Transaction pull window and week assignment (C2) -/

/-- The transaction types pulled by the dashboard (`COGS_TXN_TYPES`). -/
def COGS_TXN_TYPES : List String :=
  ["AP Invoice", "AP Credit Memo", "Stock Count", "Waste Log", "Item Transfer"]

/-- The month chunks walked by `pull_transactions_for_period` (lines
283-320): 31-day chunks from the period start up to `period_end + 1`
(the pull window is extended by one day for late stock counts). -/
def pull_chunks (period_start period_end : ℕ) : List (ℕ × ℕ) :=
  chunk_loop 30 (period_end + 1) period_start (period_end + 2 - period_start)

/-- Whether a transaction of the given type dated `d` is admitted by the
date filters of `pull_transactions_for_period`: within some chunk, and at
most `chunk_end` for Stock Counts but at most `period_end` (the grace day
removed) for every other type. -/
def txn_admitted (period_start period_end : ℕ) (txn_type : String) (d : ℕ) : Bool :=
  (pull_chunks period_start period_end).any fun c =>
    decide (c.1 ≤ d) &&
      decide (d ≤ (if txn_type = "Stock Count" then c.2 else min c.2 period_end))

/-- `date_to_week_idx` from `main` (lines 555-565): index of the first
business week whose `[start, end]` contains the date. -/
def date_to_week_idx_go (d : ℕ) : ℕ → List (ℕ × ℕ) → Option ℕ
  | _, [] => none
  | i, w :: ws =>
    if w.1 ≤ d ∧ d ≤ w.2 then some i else date_to_week_idx_go d (i + 1) ws

def date_to_week_idx (weeks : List (ℕ × ℕ)) (d : ℕ) : Option ℕ :=
  date_to_week_idx_go d 0 weeks

/-- Week assignment including the grace rule of `main` (lines 618-628):
a transaction inside some week gets that week's index; otherwise, a
Stock Count dated exactly `period_end + 1` is assigned to the last week;
every other out-of-window transaction is skipped (`none`). -/
def assign_week_idx (weeks : List (ℕ × ℕ)) (period_end : ℕ)
    (txn_type : String) (d : ℕ) : Option ℕ :=
  match date_to_week_idx weeks d with
  | some i => some i
  | none =>
    if txn_type = "Stock Count" ∧ d = period_end + 1 then some (weeks.length - 1)
    else none

lemma date_to_week_idx_go_none {d : ℕ} {l : List (ℕ × ℕ)}
    (h : ∀ w ∈ l, ¬ (w.1 ≤ d ∧ d ≤ w.2)) (i : ℕ) :
    date_to_week_idx_go d i l = none := by
  induction l generalizing i with
  | nil => rfl
  | cons a as ih =>
    have ha := h a (List.mem_cons_self a as)
    simp only [date_to_week_idx_go, if_neg ha]
    exact ih (fun w hw => h w (List.mem_cons_of_mem a hw)) (i + 1)

lemma date_to_week_idx_after_period (ps pe d : ℕ) (hps : ps ≤ pe) (hd : pe < d) :
    date_to_week_idx (get_period_weeks ps pe) d = none := by
  apply date_to_week_idx_go_none
  intro w hw
  have := (get_period_weeks_chain ps pe (by omega)).mem_bounds w hw
  omega

lemma pull_chunks_chain (ps pe : ℕ) (h : ps ≤ pe + 2) :
    IntervalChain ps (pe + 1) (pull_chunks ps pe) :=
  chunk_loop_chain 30 (pe + 1) _ ps (by omega) (by omega)

/-- C2.  With the business weeks of a period: a Stock Count dated exactly
`period_end + 1` is pulled and assigned to the period's final week; one
dated two or more days after the period end (any `d ≥ period_end + 2`)
is neither pulled nor assigned to the period; an AP Invoice, AP Credit
Memo or Waste Log dated `period_end + 1` is neither admitted by the
pull's date filter nor grace-assigned to any week. -/
theorem c2_grace_period_boundary (ps pe : ℕ) (h : ps ≤ pe) :
    (assign_week_idx (get_period_weeks ps pe) pe "Stock Count" (pe + 1) =
        some ((get_period_weeks ps pe).length - 1)
      ∧ 1 ≤ (get_period_weeks ps pe).length
      ∧ txn_admitted ps pe "Stock Count" (pe + 1) = true)
    ∧ (∀ d, pe + 2 ≤ d →
        assign_week_idx (get_period_weeks ps pe) pe "Stock Count" d = none
        ∧ txn_admitted ps pe "Stock Count" d = false)
    ∧ (∀ t ∈ ["AP Invoice", "AP Credit Memo", "Waste Log", "Item Transfer"],
        assign_week_idx (get_period_weeks ps pe) pe t (pe + 1) = none
        ∧ txn_admitted ps pe t (pe + 1) = false) := by
  have hchain := get_period_weeks_chain ps pe (by omega)
  have hpull := pull_chunks_chain ps pe (by omega)
  have hwnil : get_period_weeks ps pe ≠ [] := hchain.ne_nil h
  refine ⟨⟨?_, ?_, ?_⟩, fun d hd => ⟨?_, ?_⟩, ?_⟩
  · rw [assign_week_idx, date_to_week_idx_after_period ps pe _ h (by omega)]
    simp
  · cases hl : get_period_weeks ps pe with
    | nil => exact absurd hl hwnil
    | cons a as => simp
  · obtain ⟨c, hc, hc1, hc2⟩ :=
      hpull.exists_mem (d := pe + 1) (by omega) (by omega)
    rw [txn_admitted, List.any_eq_true]
    refine ⟨c, hc, ?_⟩
    rw [if_pos rfl]
    simp only [Bool.and_eq_true, decide_eq_true_eq]
    omega
  · rw [assign_week_idx, date_to_week_idx_after_period ps pe _ h (by omega)]
    simp [show d ≠ pe + 1 by omega]
  · rw [txn_admitted]
    simp only [List.any_eq_false]
    intro c hc
    have hb := hpull.mem_bounds c hc
    simp only [if_true, Bool.and_eq_true, decide_eq_true_eq, not_and]
    omega
  · intro t ht
    have htne : ¬ (t = "Stock Count") := by
      fin_cases ht <;> decide
    constructor
    · rw [assign_week_idx, date_to_week_idx_after_period ps pe _ h (by omega)]
      simp [htne]
    · rw [txn_admitted]
      simp only [List.any_eq_false]
      intro c hc
      have hm : min c.2 pe ≤ pe := min_le_right _ _
      simp only [htne, if_false, Bool.and_eq_true, decide_eq_true_eq, not_and]
      omega

theorem c2_grace_period_boundary_witness :
    (0 : ℕ) ≤ 27
    ∧ (assign_week_idx (get_period_weeks 0 27) 27 "Stock Count" 28 =
          some ((get_period_weeks 0 27).length - 1)
        ∧ 1 ≤ (get_period_weeks 0 27).length
        ∧ txn_admitted 0 27 "Stock Count" 28 = true) :=
  ⟨by norm_num, ((c2_grace_period_boundary 0 27 (by norm_num)).1)⟩

/-! ## Vendor name extraction (C9) -/

/-- Python `str.startswith(p)`, character-wise. -/
def py_startswith (s p : String) : Bool :=
  s.data.take p.data.length = p.data

/-- Loop of Python `str.split(sep)` over the character list: split on each
left-to-right non-overlapping occurrence of `sep`.  `fuel` bounds the
iteration count (the input length suffices for a non-empty separator). -/
def py_split_go (sep : List Char) : ℕ → List Char → List Char → List (List Char)
  | _, [], cur => [cur]
  | 0, l, cur => [cur ++ l]
  | fuel + 1, c :: rest, cur =>
    if (c :: rest).take sep.length = sep then
      cur :: py_split_go sep fuel ((c :: rest).drop sep.length) []
    else
      py_split_go sep fuel rest (cur.concat c)

/-- Python `s.split(sep)` for a non-empty separator. -/
def py_split (s sep : String) : List String :=
  (py_split_go sep.data s.data.length s.data []).map String.mk

/-- Python `str.strip()`: drop whitespace from both ends. -/
def py_strip (s : String) : String :=
  String.mk (((s.data.dropWhile Char.isWhitespace).reverse.dropWhile
    Char.isWhitespace).reverse)

/-- `extract_vendor_name` from `cogs_dashboard.py` (lines 333-342):
"Unknown" for an empty/missing name; otherwise split on " - " and return
the second part stripped when there are at least two parts, and the whole
name unchanged when there are not. -/
def extract_vendor_name (txn_name : String) : String :=
  if txn_name = "" then "Unknown"
  else
    match py_split txn_name " - " with
    | _ :: vendor :: _ => py_strip vendor
    | _ => txn_name

/-- C9, counterexample to the claim as stated: a non-empty transaction
name without the " - " separator is returned unchanged, not replaced by
"Unknown". -/
theorem c9_counterexample :
    (py_split "Sysco" " - ").length = 1
    ∧ extract_vendor_name "Sysco" = "Sysco"
    ∧ extract_vendor_name "Sysco" ≠ "Unknown" := by
  refine ⟨by decide, by rfl, by decide⟩

/-- C9 (amended).  The vendor is the second " - "-separated segment of the
display name, stripped, whenever the name splits into at least two parts;
a non-empty name without the separator is returned unchanged (not
"Unknown"); "Unknown" is produced only for an empty/missing name. -/
theorem c9_vendor_extraction (s a b : String) (rest : List String) :
    (s ≠ "" → py_split s " - " = a :: b :: rest →
      extract_vendor_name s = py_strip b)
    ∧ (s ≠ "" → (py_split s " - ").length ≤ 1 →
      extract_vendor_name s = s)
    ∧ extract_vendor_name "" = "Unknown" := by
  refine ⟨?_, ?_, by decide⟩
  · intro hs hsplit
    rw [extract_vendor_name, if_neg hs, hsplit]
  · intro hs hlen
    rw [extract_vendor_name, if_neg hs]
    cases hl : py_split s " - " with
    | nil => rfl
    | cons x xs =>
      cases xs with
      | nil => rfl
      | cons y ys =>
        rw [hl] at hlen
        simp at hlen
theorem c9_vendor_extraction_witness :
    ("AP Invoice - SYSCO - 12345" : String) ≠ ""
    ∧ py_split "AP Invoice - SYSCO - 12345" " - " =
        ["AP Invoice", "SYSCO", "12345"]
    ∧ extract_vendor_name "AP Invoice - SYSCO - 12345" = py_strip "SYSCO" :=
  ⟨by decide, by decide,
    (c9_vendor_extraction "AP Invoice - SYSCO - 12345" "AP Invoice" "SYSCO"
      ["12345"]).1 (by decide) (by decide)⟩

/-! ## Inventory-method COGS and COGS percentages (C1, C5) -/

/-- Period-level inventory-method COGS from `main` (lines 722-733):
`bi + np - ei` when both a beginning and an ending inventory value are
positive, and the number `0` (the "unavailable" marker) otherwise. -/
def period_inv_cogs (bi ei np : ℚ) : ℚ :=
  if 0 < bi ∧ 0 < ei then bi + np - ei else 0

/-- Invoice-based COGS percentage from `main` (lines 786-791, 851-855):
`round(np / ns * 100, 1)` when net sales are positive, else the number
`0`. -/
def cogs_pct_calc (np ns : ℚ) : ℚ :=
  if 0 < ns then pyround 1 (np / ns * 100) else 0

/-- Inventory-method COGS percentage from `main` (line 870): computed
only when net sales are positive and `inv_cogs` is non-zero, else `0`. -/
def inv_cogs_pct_calc (inv_cogs ns : ℚ) : ℚ :=
  if 0 < ns ∧ inv_cogs ≠ 0 then pyround 1 (inv_cogs / ns * 100) else 0

/-- C1 (amended).  At the period level (weekly rows carry no
inventory-method COGS), `inv_cogs` equals
`beginningInventory + netPurchases - endingInventory` when both
inventories are positive and is the marker `0` otherwise; a non-zero
value implies both inventories were positive.  The converse fails: since
unavailability is encoded as the number 0, a window with both counts
present but `bi + np = ei` is indistinguishable from an unavailable one
(see the counterexample). -/
theorem c1_inventory_method_cogs (bi ei np : ℚ) :
    (0 < bi → 0 < ei → period_inv_cogs bi ei np = bi + np - ei)
    ∧ (¬ (0 < bi ∧ 0 < ei) → period_inv_cogs bi ei np = 0)
    ∧ (period_inv_cogs bi ei np ≠ 0 →
        (0 < bi ∧ 0 < ei) ∧ period_inv_cogs bi ei np = bi + np - ei) := by
  unfold period_inv_cogs
  refine ⟨fun h1 h2 => if_pos ⟨h1, h2⟩, fun h => if_neg h, fun h => ?_⟩
  by_cases hc : 0 < bi ∧ 0 < ei
  · exact ⟨hc, if_pos hc⟩
  · rw [if_neg hc] at h
    exact absurd rfl h

theorem c1_inventory_method_cogs_witness :
    (0 : ℚ) < 12000 ∧ (0 : ℚ) < 11200
    ∧ period_inv_cogs 12000 11200 (480097 / 100) = 12000 + 480097 / 100 - 11200 :=
  ⟨by norm_num, by norm_num,
    (c1_inventory_method_cogs 12000 11200 (480097 / 100)).1 (by norm_num) (by norm_num)⟩

/-- C1, counterexample to the claimed availability biconditional: with
beginning inventory 10, ending inventory 10 and zero net purchases, both
inventories are positive yet the reported inventory-method COGS is the
number 0 -- exactly the unavailable marker -- and the downstream
percentage guard (`inv_cogs != 0`) therefore suppresses it too. -/
theorem c1_counterexample :
    (0 : ℚ) < 10 ∧ (0 : ℚ) < 10
    ∧ period_inv_cogs 10 10 0 = 0
    ∧ inv_cogs_pct_calc (period_inv_cogs 10 10 0) 1000 = 0 := by
  refine ⟨by norm_num, by norm_num, ?_, ?_⟩
  · rw [period_inv_cogs, if_pos (by norm_num : (0:ℚ) < 10 ∧ (0:ℚ) < 10)]
    norm_num
  · rw [period_inv_cogs, if_pos (by norm_num : (0:ℚ) < 10 ∧ (0:ℚ) < 10)]
    norm_num [inv_cogs_pct_calc]

/-- C5 (amended).  A window with non-positive net sales never has its
COGS percentage computed by division: both percentage fields are set to
the sentinel `0` without evaluating `np / ns` (so no division by zero,
infinity or NaN can arise); division happens only under the `ns > 0`
guard.  But the sentinel is the number 0, which coincides with a genuine
0% (see the counterexample), so the claim's "never reported as 0%"
fails. -/
theorem c5_zero_sales_guard (np ic ns : ℚ) :
    (ns ≤ 0 → cogs_pct_calc np ns = 0 ∧ inv_cogs_pct_calc ic ns = 0)
    ∧ (0 < ns → cogs_pct_calc np ns = pyround 1 (np / ns * 100)) := by
  constructor
  · intro h
    constructor
    · rw [cogs_pct_calc, if_neg (by linarith)]
    · rw [inv_cogs_pct_calc, if_neg (by rintro ⟨h1, -⟩; linarith)]
  · intro h
    rw [cogs_pct_calc, if_pos h]

theorem c5_zero_sales_guard_witness :
    (0 : ℚ) ≤ 0 ∧ cogs_pct_calc 100 0 = 0 ∧ inv_cogs_pct_calc 100 0 = 0 :=
  ⟨le_refl 0, (c5_zero_sales_guard 100 100 0).1 (le_refl 0)⟩

/-- C5, counterexample to "never reported as 0%": a window with zero
sales and non-zero COGS reports the number 0 as its percentage, the same
value a genuine 0% (zero purchases over positive sales) reports, and the
renderer formats both as "0.0%". -/
theorem c5_counterexample :
    cogs_pct_calc 100 0 = 0 ∧ cogs_pct_calc 0 1000 = 0 := by
  constructor
  · rw [cogs_pct_calc, if_neg (by norm_num)]
  · rw [cogs_pct_calc, if_pos (by norm_num)]
    norm_num
    exact pyround_zero 1

/-! ## Per-line COGS aggregation (C7, C8) and the period row (C3) -/

/-- `COGS_GL_ACCOUNTS` (lines 54-58): GL account number to category. -/
def COGS_GL_ACCOUNTS : List (String × String) :=
  [("5110", "Food"), ("5210", "Packaging"), ("5310", "Beverage")]

/-- The GL-account-to-category lookup built in `main` (lines 463-467),
resolved through the account number. -/
def gl_cogs_category (gl_num : String) : Option String :=
  (COGS_GL_ACCOUNTS.find? (fun kv => kv.1 = gl_num)).map (fun kv => kv.2)

/-- One entry of a week's `waste_items` list (lines 693-698). -/
structure WasteItem where
  item : String
  qty : ℚ
  uom : String
  amount : ℚ
deriving DecidableEq, Repr

/-- `defaultdict(float)` accumulation `vendors[vendor] += amt`: add to the
existing key or append a new one (Python dicts keep insertion order). -/
def vendors_add : List (String × ℚ) → String → ℚ → List (String × ℚ)
  | [], k, v => [(k, v)]
  | (k1, v1) :: rest, k, v =>
    if k1 = k then (k1, v1 + v) :: rest else (k1, v1) :: vendors_add rest k v

/-- One store-week (or store-period) accumulator of `main` (lines
531-553): all fields start at zero/empty exactly as in the `defaultdict`
initialisers. -/
structure WeekAgg where
  purchases_food : ℚ := 0
  purchases_packaging : ℚ := 0
  purchases_beverage : ℚ := 0
  purchases_other : ℚ := 0
  purchases_total : ℚ := 0
  credits : ℚ := 0
  waste : ℚ := 0
  net_purchases : ℚ := 0
  inventory_begin : ℚ := 0
  inventory_end : ℚ := 0
  inventory_adjustment : ℚ := 0
  has_stock_count : Bool := false
  stock_count_date : Option String := none
  invoices_total : ℕ := 0
  invoices_approved : ℕ := 0
  invoices_unapproved : ℕ := 0
  vendors : List (String × ℚ) := []
  waste_items : List WasteItem := []
deriving DecidableEq, Repr

/-- One transaction detail line joined with its transaction header, after
store resolution and week assignment, as consumed by the second
processing pass of `main` (lines 601-712): the header's type, display
name, approval flag and date, and the line's row type, resolved GL
account number, debit/credit/amount/quantity (`None` coerced to 0), the
resolved item label, unit of measure, and the Stock Count columns
`previousCountTotal` and `adjustment`. -/
structure LineCtx where
  txn_type : String
  txn_name : String
  approved : Bool
  date10 : String
  row_type : String
  gl_num : String
  debit : ℚ
  credit : ℚ
  amount : ℚ
  quantity : ℚ
  item_label : String
  uom : String
  prev_count_total : ℚ
  adjustment : ℚ
deriving DecidableEq, Repr

/-- The per-line aggregate update of `main` (lines 649-712), applied to a
line already assigned to this window and store. -/
def process_line (c : LineCtx) (wd : WeekAgg) : WeekAgg :=
  if c.txn_type = "AP Invoice" ∧ c.row_type = "Detail" then
    let cogs_cat := gl_cogs_category c.gl_num
    let wd1 :=
      if py_startswith c.gl_num "5" then
        let wd0 :=
          if cogs_cat = some "Food" then
            { wd with purchases_food := wd.purchases_food + c.debit }
          else if cogs_cat = some "Packaging" then
            { wd with purchases_packaging := wd.purchases_packaging + c.debit }
          else if cogs_cat = some "Beverage" then
            { wd with purchases_beverage := wd.purchases_beverage + c.debit }
          else
            { wd with purchases_other := wd.purchases_other + c.debit }
        { wd0 with purchases_total := wd0.purchases_total + c.debit }
      else wd
    let vendor := extract_vendor_name c.txn_name
    let wd2 := { wd1 with vendors := vendors_add wd1.vendors vendor c.debit }
    let wd3 := { wd2 with invoices_total := wd2.invoices_total + 1 }
    if c.approved then { wd3 with invoices_approved := wd3.invoices_approved + 1 }
    else { wd3 with invoices_unapproved := wd3.invoices_unapproved + 1 }
  else if c.txn_type = "AP Credit Memo" ∧ c.row_type = "Detail" then
    if py_startswith c.gl_num "5" then { wd with credits := wd.credits + c.credit }
    else wd
  else if c.txn_type = "Waste Log" ∧ c.row_type = "Detail" then
    let waste_amt := if c.amount < 0 then |c.amount| else c.debit
    { wd with
      waste := wd.waste + waste_amt,
      waste_items := wd.waste_items ++
        [{ item := c.item_label, qty := |c.quantity|, uom := c.uom,
           amount := waste_amt }] }
  else if c.txn_type = "Stock Count" ∧ c.row_type = "Detail" then
    if py_startswith c.gl_num "5" then
      { wd with
        has_stock_count := true,
        stock_count_date := some c.date10,
        inventory_end := wd.inventory_end + c.amount,
        inventory_begin := wd.inventory_begin + c.prev_count_total,
        inventory_adjustment := wd.inventory_adjustment + c.adjustment }
    else wd
  else wd

/-- `net_purchases` as computed after the line pass (lines 714-718 and
724): gross purchases total minus credits. -/
def net_purchases_of (wd : WeekAgg) : ℚ := wd.purchases_total - wd.credits

/-- The aggregate fields the spec calls "COGS arithmetic" restricted to
the GL-filtered ones: category/gross purchases, credits and inventory
values. -/
def gl_filtered_unchanged (a b : WeekAgg) : Prop :=
  a.purchases_food = b.purchases_food
  ∧ a.purchases_packaging = b.purchases_packaging
  ∧ a.purchases_beverage = b.purchases_beverage
  ∧ a.purchases_other = b.purchases_other
  ∧ a.purchases_total = b.purchases_total
  ∧ a.credits = b.credits
  ∧ a.inventory_begin = b.inventory_begin
  ∧ a.inventory_end = b.inventory_end
  ∧ a.inventory_adjustment = b.inventory_adjustment
  ∧ a.has_stock_count = b.has_stock_count

/-- C7 (amended).  A non-"Detail" row leaves every aggregate unchanged.
A line whose resolved GL account number does not start with "5" leaves
the GL-filtered aggregates (category and gross purchases, credits,
inventory values) unchanged -- but, against the claim as stated, the GL
filter does not protect the other aggregates: an AP Invoice detail line
always bumps the invoice counters and vendor totals, and a Waste Log
detail line always adds its amount to waste, whatever its GL account. -/
theorem c7_detail_gl_filter (c : LineCtx) (wd : WeekAgg) :
    (c.row_type ≠ "Detail" → process_line c wd = wd)
    ∧ (py_startswith c.gl_num "5" = false →
        gl_filtered_unchanged (process_line c wd) wd)
    ∧ (c.txn_type = "Waste Log" → c.row_type = "Detail" →
        (process_line c wd).waste =
          wd.waste + (if c.amount < 0 then |c.amount| else c.debit))
    ∧ (c.txn_type = "AP Invoice" → c.row_type = "Detail" →
        (process_line c wd).invoices_total = wd.invoices_total + 1) := by
  refine ⟨?_, ?_, ?_, ?_⟩
  · intro h
    unfold process_line
    rw [if_neg (by tauto), if_neg (by tauto), if_neg (by tauto), if_neg (by tauto)]
  · intro h
    unfold process_line
    split_ifs <;> simp_all [gl_filtered_unchanged]
  · intro h1 h2
    unfold process_line
    rw [if_neg (by simp [h1]), if_neg (by simp [h1]), if_pos ⟨h1, h2⟩]
  · intro h1 h2
    by_cases h5 : py_startswith c.gl_num "5" <;>
      by_cases hf : gl_cogs_category c.gl_num = some "Food" <;>
        by_cases hp : gl_cogs_category c.gl_num = some "Packaging" <;>
          by_cases hb : gl_cogs_category c.gl_num = some "Beverage" <;>
            by_cases ha : c.approved <;>
              simp [process_line, h1, h2, h5, hf, hp, hb, ha]

theorem c7_detail_gl_filter_witness :
    ({ txn_type := "Stock Count", txn_name := "", approved := false,
       date10 := "2026-01-27", row_type := "Header", gl_num := "5110",
       debit := 0, credit := 0, amount := 500, quantity := 1,
       item_label := "", uom := "", prev_count_total := 400,
       adjustment := 0 } : LineCtx).row_type ≠ "Detail"
    ∧ process_line
        { txn_type := "Stock Count", txn_name := "", approved := false,
          date10 := "2026-01-27", row_type := "Header", gl_num := "5110",
          debit := 0, credit := 0, amount := 500, quantity := 1,
          item_label := "", uom := "", prev_count_total := 400,
          adjustment := 0 } {} = {} :=
  ⟨by decide,
    (c7_detail_gl_filter
      { txn_type := "Stock Count", txn_name := "", approved := false,
        date10 := "2026-01-27", row_type := "Header", gl_num := "5110",
        debit := 0, credit := 0, amount := 500, quantity := 1,
        item_label := "", uom := "", prev_count_total := 400,
        adjustment := 0 } {}).1 (by decide)⟩

/-- An AP Invoice detail line posted to a non-COGS GL account (6100). -/
def c7_cx_line : LineCtx :=
  { txn_type := "AP Invoice", txn_name := "AP Invoice - SYSCO - 1",
    approved := false, date10 := "2026-01-10", row_type := "Detail",
    gl_num := "6100", debit := 50, credit := 0, amount := 50, quantity := 1,
    item_label := "", uom := "", prev_count_total := 0, adjustment := 0 }

/-- A Waste Log detail line posted to a non-COGS GL account (6100). -/
def c7_cx_waste_line : LineCtx :=
  { txn_type := "Waste Log", txn_name := "Waste Log - 2026-01-10",
    approved := false, date10 := "2026-01-10", row_type := "Detail",
    gl_num := "6100", debit := 7, credit := 0, amount := 7, quantity := 2,
    item_label := "Avocado", uom := "Each", prev_count_total := 0,
    adjustment := 0 }

/-- C7, counterexample to the claim as stated: detail lines whose GL
account number starts with "6", not "5", still contribute -- the invoice
line bumps the invoice counter and vendor totals, and the waste line adds
to the waste aggregate -- while the claim demands every aggregate be left
unchanged. -/
theorem c7_counterexample :
    py_startswith c7_cx_line.gl_num "5" = false
    ∧ (process_line c7_cx_line {}).invoices_total = 1
    ∧ (process_line c7_cx_line {}).vendors = [("SYSCO", 50)]
    ∧ (process_line c7_cx_line {}).purchases_total = 0
    ∧ py_startswith c7_cx_waste_line.gl_num "5" = false
    ∧ (process_line c7_cx_waste_line {}).waste = 7 := by
  have h1 : py_startswith "6100" "5" = false := by decide
  have h2 : extract_vendor_name "AP Invoice - SYSCO - 1" = "SYSCO" := by decide
  have h3 : ("Waste Log" : String) ≠ "AP Invoice" := by decide
  have h4 : ("Waste Log" : String) ≠ "AP Credit Memo" := by decide
  refine ⟨h1, ?_, ?_, ?_, h1, ?_⟩ <;>
    · simp only [process_line, c7_cx_line, c7_cx_waste_line]
      norm_num [h1, h2, h3, h4, vendors_add]

/-- C8 (amended).  Under the implicit upstream convention that debit and
credit amounts are non-negative, processing one more AP Invoice detail
line never decreases the window's net purchases and processing one more
AP Credit Memo detail line never increases it.  Without that sign
assumption the claim fails (see the counterexample): the code adds the
line's debit/credit as-is. -/
theorem c8_net_purchases_monotonicity (c : LineCtx) (wd : WeekAgg) :
    (c.txn_type = "AP Invoice" → 0 ≤ c.debit →
      net_purchases_of wd ≤ net_purchases_of (process_line c wd))
    ∧ (c.txn_type = "AP Credit Memo" → 0 ≤ c.credit →
      net_purchases_of (process_line c wd) ≤ net_purchases_of wd) := by
  constructor
  · intro h1 h2
    by_cases h2d : c.row_type = "Detail" <;>
      by_cases h5 : py_startswith c.gl_num "5" <;>
        by_cases hf : gl_cogs_category c.gl_num = some "Food" <;>
          by_cases hp : gl_cogs_category c.gl_num = some "Packaging" <;>
            by_cases hb : gl_cogs_category c.gl_num = some "Beverage" <;>
              by_cases ha : c.approved <;>
                simp [process_line, net_purchases_of, h1, h2d, h5, hf, hp, hb, ha] <;>
                  linarith
  · intro h1 h2
    by_cases h2d : c.row_type = "Detail" <;>
      by_cases h5 : py_startswith c.gl_num "5" <;>
        simp [process_line, net_purchases_of, h1, h2d, h5] <;> linarith

theorem c8_net_purchases_monotonicity_witness :
    (c7_cx_line.txn_type = "AP Invoice" ∧ (0 : ℚ) ≤ c7_cx_line.debit)
    ∧ net_purchases_of {} ≤ net_purchases_of (process_line c7_cx_line {}) :=
  ⟨⟨by decide, by norm_num [c7_cx_line]⟩,
    (c8_net_purchases_monotonicity c7_cx_line {}).1 (by decide)
      (by norm_num [c7_cx_line])⟩

/-- An AP Invoice detail line carrying a negative debit on a COGS GL
account. -/
def c8_cx_line : LineCtx :=
  { txn_type := "AP Invoice", txn_name := "AP Invoice - SYSCO - 2",
    approved := true, date10 := "2026-01-10", row_type := "Detail",
    gl_num := "5110", debit := -1, credit := 0, amount := -1, quantity := 1,
    item_label := "", uom := "", prev_count_total := 0, adjustment := 0 }

/-- C8, counterexample to the claim as stated: an AP Invoice detail line
with a negative debit (a reversal/adjustment row) strictly decreases the
window's net purchases, which the claim says can never happen. -/
theorem c8_counterexample :
    net_purchases_of (process_line c8_cx_line {}) < net_purchases_of ({} : WeekAgg) := by
  have h1 : py_startswith "5110" "5" = true := by decide
  have h2 : gl_cogs_category "5110" = some "Food" := by decide
  simp only [process_line, c8_cx_line]
  norm_num [h1, h2, net_purchases_of]

/-! ## Coverage factor and the period-store output row (C3) -/

/-- `COGS_COVERAGE_FACTOR` (line 64): 4.39. -/
def COGS_COVERAGE_FACTOR : ℚ := 439 / 100

/-- The coverage-factor-adjusted estimate as computed in the offline
validation analysis (`cogs_p1_dashboard_validation.py`, the
"IF DASHBOARD USED ... COVERAGE FACTOR" section):
`estimated = r365 * coverage_factor`. -/
def coverage_estimated (r365 coverage_factor : ℚ) : ℚ :=
  r365 * coverage_factor

/-- Python `sorted(vendors.items(), key=lambda x: -x[1])[:10]`. -/
def top_vendors_of (vendors : List (String × ℚ)) : List (String × ℚ) :=
  (vendors.mergeSort (fun a b => decide (b.2 ≤ a.2))).take 10

/-- One entry of `period_store_data` as built by `main` (lines 851-895):
exactly the keys serialised into the dashboard JSON for a store's period
totals ("name" aside). -/
structure PeriodStoreRow where
  net_sales : ℚ
  purchases_food : ℚ
  purchases_packaging : ℚ
  purchases_beverage : ℚ
  purchases_other : ℚ
  purchases_total : ℚ
  credits : ℚ
  waste : ℚ
  net_purchases : ℚ
  cogs_pct : ℚ
  budget_cogs_pct : ℚ
  budget_cogs : ℚ
  has_stock_count : Bool
  has_begin_inv : Bool
  invoices_total : ℕ
  invoices_approved : ℕ
  top_vendors : List (String × ℚ)
  begin_inventory : ℚ
  end_inventory : ℚ
  inv_cogs : ℚ
  inv_cogs_pct : ℚ
deriving DecidableEq, Repr

/-- The period-store row builder of `main`: the finalisation pass (lines
722-733) computes `net_purchases = purchases_total - credits` and
`inv_cogs = period_inv_cogs bi inventory_end net_purchases`, and the
builder (lines 851-895) rounds and exposes them together with the other
aggregates. -/
def mk_period_store_row (pd : WeekAgg) (bi ns budget_cogs_pct budget_cogs : ℚ) :
    PeriodStoreRow :=
  let np := pd.purchases_total - pd.credits
  let ei := pd.inventory_end
  let inv_cogs := period_inv_cogs bi ei np
  { net_sales := pyround 2 ns
    purchases_food := pyround 2 pd.purchases_food
    purchases_packaging := pyround 2 pd.purchases_packaging
    purchases_beverage := pyround 2 pd.purchases_beverage
    purchases_other := pyround 2 pd.purchases_other
    purchases_total := pyround 2 pd.purchases_total
    credits := pyround 2 pd.credits
    waste := pyround 2 pd.waste
    net_purchases := pyround 2 np
    cogs_pct := cogs_pct_calc np ns
    budget_cogs_pct := budget_cogs_pct
    budget_cogs := pyround 2 budget_cogs
    has_stock_count := pd.has_stock_count
    has_begin_inv := decide (0 < bi)
    invoices_total := pd.invoices_total
    invoices_approved := pd.invoices_approved
    top_vendors := (top_vendors_of pd.vendors).map (fun v => (v.1, pyround 2 v.2))
    begin_inventory := pyround 2 bi
    end_inventory := pyround 2 ei
    inv_cogs := pyround 2 inv_cogs
    inv_cogs_pct := inv_cogs_pct_calc inv_cogs ns }

/-- Every numeric value exposed by a period-store row. -/
def period_store_row_values (r : PeriodStoreRow) : List ℚ :=
  [r.net_sales, r.purchases_food, r.purchases_packaging, r.purchases_beverage,
   r.purchases_other, r.purchases_total, r.credits, r.waste, r.net_purchases,
   r.cogs_pct, r.budget_cogs_pct, r.budget_cogs, (r.invoices_total : ℚ),
   (r.invoices_approved : ℚ), r.begin_inventory, r.end_inventory, r.inv_cogs,
   r.inv_cogs_pct] ++ r.top_vendors.map (fun v => v.2)

/-- C3 (amended).  The coverage-factor scaling relation
`estimated = netPurchases * coverageFactor` holds exactly (for any
factor, including 0 and values above 10) in the offline validation
script, where it is computed; the production dashboard merely defines
`COGS_COVERAGE_FACTOR = 4.39` and its period row exposes the
invoice-based figure (`purchases_total - credits`, rounded) and the
inventory-method figure, with no coverage-adjusted estimate (see the
counterexample). -/
theorem c3_coverage_factor_scaling (r365 factor : ℚ) (pd : WeekAgg)
    (bi ns b1 b2 : ℚ) :
    coverage_estimated r365 factor = r365 * factor
    ∧ coverage_estimated r365 0 = 0
    ∧ coverage_estimated r365 COGS_COVERAGE_FACTOR = r365 * (439 / 100)
    ∧ (mk_period_store_row pd bi ns b1 b2).net_purchases =
        pyround 2 (pd.purchases_total - pd.credits)
    ∧ (mk_period_store_row pd bi ns b1 b2).inv_cogs =
        pyround 2 (period_inv_cogs bi pd.inventory_end
          (pd.purchases_total - pd.credits)) := by
  refine ⟨rfl, ?_, rfl, rfl, rfl⟩
  simp [coverage_estimated]

/-- The period aggregate used by the C3 counterexample: gross purchases
120 (all Food), credits 20, waste 5, ending inventory 250. -/
def c3_pd : WeekAgg :=
  { purchases_food := 120, purchases_total := 120, credits := 20, waste := 5,
    inventory_end := 250, has_stock_count := true, invoices_total := 3,
    invoices_approved := 2 }

lemma c3_row_eq :
    mk_period_store_row c3_pd 300 1000 30 28000 =
      { net_sales := 1000, purchases_food := 120, purchases_packaging := 0,
        purchases_beverage := 0, purchases_other := 0, purchases_total := 120,
        credits := 20, waste := 5, net_purchases := 100, cogs_pct := 10,
        budget_cogs_pct := 30, budget_cogs := 28000, has_stock_count := true,
        has_begin_inv := true, invoices_total := 3, invoices_approved := 2,
        top_vendors := [], begin_inventory := 300, end_inventory := 250,
        inv_cogs := 150, inv_cogs_pct := 15 } := by
  have e0 : pyround 2 (0 : ℚ) = 0 := pyround_zero 2
  have e5 : pyround 2 (5 : ℚ) = 5 := by simpa using pyround_natCast 2 5
  have e20 : pyround 2 (20 : ℚ) = 20 := by simpa using pyround_natCast 2 20
  have e100 : pyround 2 (100 : ℚ) = 100 := by simpa using pyround_natCast 2 100
  have e120 : pyround 2 (120 : ℚ) = 120 := by simpa using pyround_natCast 2 120
  have e250 : pyround 2 (250 : ℚ) = 250 := by simpa using pyround_natCast 2 250
  have e300 : pyround 2 (300 : ℚ) = 300 := by simpa using pyround_natCast 2 300
  have e1000 : pyround 2 (1000 : ℚ) = 1000 := by simpa using pyround_natCast 2 1000
  have e28000 : pyround 2 (28000 : ℚ) = 28000 := by
    simpa using pyround_natCast 2 28000
  have e150 : pyround 2 (150 : ℚ) = 150 := by simpa using pyround_natCast 2 150
  have einv : period_inv_cogs 300 250 100 = 150 := by
    rw [period_inv_cogs, if_pos (by norm_num : (0:ℚ) < 300 ∧ (0:ℚ) < 250)]
    norm_num
  have epct : cogs_pct_calc 100 1000 = 10 := by
    rw [cogs_pct_calc, if_pos (by norm_num : (0:ℚ) < 1000)]
    have : (100 : ℚ) / 1000 * 100 = ((10 : ℕ) : ℚ) := by norm_num
    rw [this, pyround_natCast]
    norm_num
  have eipct : inv_cogs_pct_calc 150 1000 = 15 := by
    rw [inv_cogs_pct_calc, if_pos (by norm_num : (0:ℚ) < 1000 ∧ (150:ℚ) ≠ 0)]
    have : (150 : ℚ) / 1000 * 100 = ((15 : ℕ) : ℚ) := by norm_num
    rw [this, pyround_natCast]
    norm_num
  simp only [mk_period_store_row, c3_pd, top_vendors_of, List.mergeSort_nil,
    List.take_nil, List.map_nil]
  norm_num [e0, e5, e20, e100, e120, e250, e300, e1000, e28000, e150, einv,
    epct, eipct]

/-- C3, counterexample to the claim as stated: at a concrete period
aggregate with `netPurchases = 100` and the configured factor 4.39, the
coverage-adjusted estimate would be 439, but no value exposed by the
dashboard's period-store row equals 439 -- the dashboard computes and
exposes only the invoice-based and inventory-method figures and never
applies `COGS_COVERAGE_FACTOR`. -/
theorem c3_counterexample :
    COGS_COVERAGE_FACTOR = 439 / 100
    ∧ (mk_period_store_row c3_pd 300 1000 30 28000).net_purchases = 100
    ∧ (100 : ℚ) * COGS_COVERAGE_FACTOR = 439
    ∧ (439 : ℚ) ∉ period_store_row_values (mk_period_store_row c3_pd 300 1000 30 28000) := by
  refine ⟨rfl, ?_, ?_, ?_⟩
  · rw [c3_row_eq]
  · rw [COGS_COVERAGE_FACTOR]
    norm_num
  · rw [c3_row_eq]
    simp only [period_store_row_values, List.map_nil, List.append_nil,
      List.mem_cons, List.not_mem_nil]
    norm_num

/-! ## Upstream fetch, retries and error swallowing (C6) -/

/-- The retry loop of `r365_fetch` / `toast_get` (lines 77-91, 127-144):
`attempts i` is the outcome of the i-th request (`none` = network
error/429).  The loop tries up to `k` attempts, returning the first
success; once the last attempt fails the exception propagates
(`Except.error`). -/
def retry_fetch_go {α : Type} (attempts : ℕ → Option α) : ℕ → ℕ → Except Unit α
  | _, 0 => Except.error ()
  | attempt, k + 1 =>
    match attempts attempt with
    | some v => Except.ok v
    | none =>
      if k = 0 then Except.error () else retry_fetch_go attempts (attempt + 1) k

/-- `r365_fetch(url, retries=3)`, abstracted over the per-attempt
outcomes. -/
def r365_fetch (attempts : ℕ → Option ℚ) (retries : ℕ := 3) : Except Unit ℚ :=
  retry_fetch_go attempts 0 retries

/-- The per-day sales loop of `pull_period_sales` (lines 365-380):
completed cached days are reused; otherwise the day is fetched and -- on
an exception -- the day's net sales are recorded as `0` and the loop
continues.  `fuel` bounds the iterations (`data_end + 1 - current`
suffices). -/
def pull_sales_days_go (cache : ℕ → Option ℚ) (yesterday : ℕ)
    (fetch : ℕ → Except Unit ℚ) (data_end : ℕ) : ℕ → ℕ → List (ℕ × ℚ)
  | _, 0 => []
  | current, fuel + 1 =>
    if current ≤ data_end then
      match (if current < yesterday then cache current else none) with
      | some v =>
        (current, v) :: pull_sales_days_go cache yesterday fetch data_end
          (current + 1) fuel
      | none =>
        (current,
          match fetch current with
          | Except.ok v => v
          | Except.error _ => 0) ::
          pull_sales_days_go cache yesterday fetch data_end (current + 1) fuel
    else []

def pull_sales_days (cache : ℕ → Option ℚ) (yesterday : ℕ)
    (fetch : ℕ → Except Unit ℚ) (period_start data_end : ℕ) : List (ℕ × ℚ) :=
  pull_sales_days_go cache yesterday fetch data_end period_start
    (data_end + 1 - period_start)

/-- The per-type fetch loop of `pull_transactions_for_period` (lines
300-317): each transaction type is fetched inside `try/except`; on an
exception the error is printed and that type's records are simply
missing from the result, while the run continues. -/
def pull_types_records {α : Type} (fetch : String → Except Unit (List α)) :
    List String → List α
  | [] => []
  | t :: ts =>
    (match fetch t with
     | Except.ok rs => rs
     | Except.error _ => []) ++ pull_types_records fetch ts

lemma pull_sales_days_go_mem (cache : ℕ → Option ℚ) (yesterday : ℕ)
    (fetch : ℕ → Except Unit ℚ) (data_end d : ℕ) :
    ∀ fuel current, current ≤ d → d ≤ data_end →
      data_end + 1 - current ≤ fuel →
      (d, match (if d < yesterday then cache d else none) with
          | some v => v
          | none =>
            match fetch d with
            | Except.ok v => v
            | Except.error _ => 0) ∈
        pull_sales_days_go cache yesterday fetch data_end current fuel := by
  intro fuel
  induction fuel with
  | zero => intro current h1 h2 h3; omega
  | succ n ih =>
    intro current h1 h2 h3
    have hc : current ≤ data_end := by omega
    simp only [pull_sales_days_go, if_pos hc]
    by_cases hcd : current = d
    · subst hcd
      cases hcache : (if current < yesterday then cache current else none) with
      | some v => simp [hcache]
      | none => simp [hcache]
    · have hlt : current + 1 ≤ d := by omega
      cases hcache : (if current < yesterday then cache current else none) with
      | some v =>
        exact List.mem_cons_of_mem _ (ih (current + 1) hlt h2 (by omega))
      | none =>
        exact List.mem_cons_of_mem _ (ih (current + 1) hlt h2 (by omega))

/-- All-failing attempts exhaust the retry loop and raise. -/
lemma retry_fetch_go_all_none {α : Type} (attempts : ℕ → Option α)
    (h : ∀ i, attempts i = none) :
    ∀ k attempt, retry_fetch_go attempts attempt k = Except.error () := by
  intro k
  induction k with
  | zero => intro attempt; rfl
  | succ n ih =>
    intro attempt
    simp only [retry_fetch_go, h attempt]
    cases n with
    | zero => rfl
    | succ m => simpa using ih (attempt + 1)

/-- A failed transaction type contributes exactly as if the upstream had
returned no records for it: the failure is absorbed, not propagated. -/
lemma pull_types_records_error_absorbed {α : Type}
    (fetchT : String → Except Unit (List α)) (t : String)
    (h : fetchT t = Except.error ()) (ts : List String) :
    pull_types_records fetchT ts =
      pull_types_records
        (fun s => if s = t then Except.ok [] else fetchT s) ts := by
  induction ts with
  | nil => rfl
  | cons a as ih =>
    simp only [pull_types_records, ih]
    by_cases ha : a = t
    · subst ha
      rw [h]
      simp
    · simp [ha]

/-- C6 (amended).  `r365_fetch` retries up to its bound and then fails
hard (`Except.error`), but the enclosing fetch steps swallow that
failure instead of aborting: `pull_period_sales` records a failed,
uncached day's net sales as the number `0` and keeps going (producing an
aggregate with zeros substituted), and `pull_transactions_for_period`
logs the failed transaction type and continues exactly as if that type
had no records.  Neither step propagates the error, so the run still
produces its output artifact. -/
theorem c6_retry_exhaustion_swallowed (retries : ℕ) (attempts : ℕ → Option ℚ)
    (cache : ℕ → Option ℚ) (yesterday : ℕ) (fetch : ℕ → Except Unit ℚ)
    (ps de d : ℕ) (fetchT : String → Except Unit (List ℚ)) (t : String) :
    ((∀ i, attempts i = none) → r365_fetch attempts retries = Except.error ())
    ∧ (ps ≤ d → d ≤ de → (if d < yesterday then cache d else none) = none →
        fetch d = Except.error () →
        (d, 0) ∈ pull_sales_days cache yesterday fetch ps de)
    ∧ (fetchT t = Except.error () →
        pull_types_records fetchT COGS_TXN_TYPES =
          pull_types_records
            (fun s => if s = t then Except.ok [] else fetchT s)
            COGS_TXN_TYPES) := by
    refine ⟨fun h => retry_fetch_go_all_none attempts h retries 0, ?_, ?_⟩
    · intro h1 h2 hcache herr
      have := pull_sales_days_go_mem cache yesterday fetch de d
        (de + 1 - ps) ps h1 h2 (by omega)
      rw [hcache, herr] at this
      exact this
    · intro h
      exact pull_types_records_error_absorbed fetchT t h COGS_TXN_TYPES

theorem c6_retry_exhaustion_swallowed_witness :
    (∀ i : ℕ, (fun _ : ℕ => (none : Option ℚ)) i = none)
    ∧ r365_fetch (fun _ => none) 3 = Except.error ()
    ∧ ((5 : ℕ) ≤ 5 ∧ (5 : ℕ) ≤ 5
        ∧ (5, (0 : ℚ)) ∈
            pull_sales_days (fun _ => none) 0 (fun _ => Except.error ()) 5 5) :=
  ⟨fun _ => rfl,
    (c6_retry_exhaustion_swallowed 3 (fun _ => none) (fun _ => none) 0
      (fun _ => Except.error ()) 5 5 5 (fun _ => Except.error ()) "Stock Count").1
      (fun _ => rfl),
    le_refl 5, le_refl 5,
    (c6_retry_exhaustion_swallowed 3 (fun _ => none) (fun _ => none) 0
      (fun _ => Except.error ()) 5 5 5 (fun _ => Except.error ()) "Stock Count").2.1
      (le_refl 5) (le_refl 5) (by simp) rfl⟩

/-- C6, counterexample to the claim as stated: with every upstream fetch
failing, the sales step still returns an aggregate -- recording the
failed day as `0` net sales -- and the transaction step still returns a
(here empty) record list; neither aborts, even though the underlying
`r365_fetch` did fail hard after its retries. -/
theorem c6_counterexample :
    pull_sales_days (fun _ => none) 0 (fun _ => Except.error ()) 5 5 = [(5, 0)]
    ∧ r365_fetch (fun _ => none) 3 = Except.error ()
    ∧ pull_types_records (fun _ => (Except.error () : Except Unit (List ℚ)))
        COGS_TXN_TYPES = [] := by
  refine ⟨by decide, by rfl, by decide⟩

/-! ## Paginated bulk detail pull (C10) -/

/-- The pagination loop of `r365_fetch_all` (lines 94-106): fetch
5000-row pages (`rows.drop skip |>.take 5000` models the page at offset
`skip`), extending `acc`, and stop when a page is short *or* the
accumulated records reach `max_records`.  `fuel` bounds the iterations
(`rows.length / 5000 + 1` suffices, since every non-final iteration
consumes a full page). -/
def r365_fetch_all_go {α : Type} (rows : List α) (max_records : ℕ) :
    ℕ → List α → ℕ → List α
  | _, acc, 0 => acc
  | skip, acc, fuel + 1 =>
    let records := (rows.drop skip).take 5000
    let acc2 := acc ++ records
    if records.length < 5000 ∨ max_records ≤ acc2.length then acc2
    else r365_fetch_all_go rows max_records (skip + 5000) acc2 fuel

/-- `r365_fetch_all(url, max_records=50000)`, abstracted over the
upstream table contents. -/
def r365_fetch_all {α : Type} (rows : List α) (max_records : ℕ := 50000) :
    List α :=
  r365_fetch_all_go rows max_records 0 [] (rows.length / 5000 + 1)

/-- `pull_transaction_details` (lines 323-330): pull the whole detail
table (capped pagination included) and filter client-side by transaction
id membership.  A detail row is modelled as its transaction id paired
with its payload. -/
def pull_transaction_details {α : Type} (all_details : List (String × α))
    (transaction_ids : List String) : List (String × α) :=
  (r365_fetch_all all_details 50000).filter
    (fun td => decide (td.1 ∈ transaction_ids))

lemma r365_fetch_all_go_small {α : Type} (rows : List α)
    (hlen : rows.length ≤ 50000) :
    ∀ fuel skip, skip ≤ rows.length → rows.length ≤ skip + 5000 * fuel →
      r365_fetch_all_go rows 50000 skip (rows.take skip) fuel = rows := by
  intro fuel
  induction fuel with
  | zero =>
    intro skip h1 h2
    have : skip = rows.length := by omega
    subst this
    simp [r365_fetch_all_go]
  | succ n ih =>
    intro skip h1 h2
    have hacc2 : rows.take skip ++ (rows.drop skip).take 5000 =
        rows.take (skip + 5000) := (List.take_add rows skip 5000).symm
    have hrl : ((rows.drop skip).take 5000).length =
        min 5000 (rows.length - skip) := by
      simp [List.length_take, List.length_drop]
    have hal : (rows.take (skip + 5000)).length =
        min (skip + 5000) rows.length := by
      simp [List.length_take]
    simp only [r365_fetch_all_go, hacc2]
    split_ifs with hstop
    · rcases hstop with hshort | hcap
      · apply List.take_of_length_le
        omega
      · rw [hal] at hcap
        apply List.take_of_length_le
        omega
    · push_neg at hstop
      obtain ⟨hfull, -⟩ := hstop
      have hskip : skip + 5000 ≤ rows.length := by omega
      exact ih (skip + 5000) hskip (by omega)

lemma r365_fetch_all_go_cap {α : Type} (rows : List α) :
    ∀ fuel skip acc, acc.length % 5000 = 0 → acc.length < 50000 →
      (r365_fetch_all_go rows 50000 skip acc fuel).length ≤ 50000 := by
  intro fuel
  induction fuel with
  | zero =>
    intro skip acc h1 h2
    simp only [r365_fetch_all_go]
    exact h2.le
  | succ n ih =>
    intro skip acc h1 h2
    have hrl : ((rows.drop skip).take 5000).length ≤ 5000 := by
      simp [List.length_take]
    simp only [r365_fetch_all_go, List.length_append]
    split_ifs with hstop
    · simp only [List.length_append]
      omega
    · push_neg at hstop
      obtain ⟨hfull, hcap⟩ := hstop
      have hfull5 : ((rows.drop skip).take 5000).length = 5000 := by omega
      apply ih
      · simp only [List.length_append, hfull5]
        omega
      · simp only [List.length_append] at hcap ⊢
        omega

/-- C10 (amended).  The bulk detail pull pages in 5000-row pages and, as
long as the table holds at most `max_records = 50000` rows, exhausts all
pages and returns every row in order; but the loop also stops once
50000 records have accumulated, so rows beyond that cap are silently
dropped (see the counterexample).  The caller then filters client-side:
a detail row is kept exactly when it was fetched and its transaction id
is in the requested id set. -/
theorem c10_bulk_detail_pagination {α : Type} (rows : List α)
    (details : List (String × α)) (ids : List String) (td : String × α) :
    (rows.length ≤ 50000 → r365_fetch_all rows 50000 = rows)
    ∧ (r365_fetch_all rows 50000).length ≤ 50000
    ∧ (td ∈ pull_transaction_details details ids ↔
        td ∈ r365_fetch_all details 50000 ∧ td.1 ∈ ids) := by
  refine ⟨?_, ?_, ?_⟩
  · intro hlen
    have h0 : rows.take 0 = [] := rfl
    rw [r365_fetch_all, ← h0]
    exact r365_fetch_all_go_small rows hlen _ 0 (by omega) (by omega)
  · exact r365_fetch_all_go_cap rows _ 0 [] (by simp) (by simp)
  · rw [pull_transaction_details]
    simp [List.mem_filter]

theorem c10_bulk_detail_pagination_witness :
    (List.range 3).length ≤ 50000
    ∧ r365_fetch_all (List.range 3) 50000 = List.range 3 :=
  ⟨by decide,
    (c10_bulk_detail_pagination (List.range 3) ([] : List (String × ℕ)) [] ("", 0)).1
      (by decide)⟩

/-- C10, counterexample to the claim as stated: with 50001 distinct rows
upstream, the pull stops at the 50000-record cap, so some detail row is
not returned -- there *is* a record cap after which remaining pages are
dropped. -/
theorem c10_counterexample :
    ¬ ∀ r ∈ List.range 50001, r ∈ r365_fetch_all (List.range 50001) 50000 := by
  intro h
  have hsub : List.range 50001 ⊆ r365_fetch_all (List.range 50001) 50000 :=
    fun r hr => h r hr
  have hlen : (List.range 50001).length ≤
      (r365_fetch_all (List.range 50001) 50000).length :=
    (List.subperm_of_subset (List.nodup_range 50001) hsub).length_le
  have hcap : (r365_fetch_all (List.range 50001) 50000).length ≤ 50000 :=
    r365_fetch_all_go_cap (List.range 50001) _ 0 [] (by simp) (by simp)
  rw [List.length_range] at hlen
  omega
